import Mathlib

/-!
Verification development for the CodingSnake game server core.

The definitions below are a shallow embedding of the C++ sources under
`src/server/`: pure data is translated to Lean structures, mutating member
functions become functions returning the updated value, C++ `int` becomes
unbounded `Int` (no arithmetic in the embedded fragment comes near the
32-bit boundary), `std::deque` becomes `List` (front = index 0),
`std::set` / `std::unordered_set` become `Finset`, `std::unordered_map`
becomes a function into `Option`, and randomness (`std::mt19937` draws)
becomes an explicit stream parameter.  Fallible calls return `Option` or a
sentinel exactly as the source does.
-/

/-! ## Grid primitives (`models/Point.h`, `models/Direction.cpp`) -/

/-- 2-D grid point, `struct Point` from `models/Point.h`. -/
structure Point where
  x : Int
  y : Int
deriving DecidableEq, Repr

/-- Embeds `enum class Direction` from `models/Direction.h`. -/
inductive Direction
  | UP
  | DOWN
  | LEFT
  | RIGHT
  | NONE
deriving DecidableEq, Repr

namespace DirectionUtils

/-- Embeds `DirectionUtils::toString` from `models/Direction.cpp` (lines 39-54).
The `default: return "UNKNOWN"` arm of the C++ switch is unreachable:
the five constructors are exhaustive. -/
def toString (dir : Direction) : String :=
  match dir with
  | Direction.UP => "UP"
  | Direction.DOWN => "DOWN"
  | Direction.LEFT => "LEFT"
  | Direction.RIGHT => "RIGHT"
  | Direction.NONE => "NONE"

/-- The uppercase conversion `std::transform(..., ::toupper)` performed by
`DirectionUtils::fromString`: a character-by-character pass in which ASCII
lowercase letters are mapped to the corresponding uppercase letters and
every other character is unchanged (`Char.toUpper` is exactly the behaviour
of C `toupper` in the default locale on the ASCII range). -/
def upperAscii (s : String) : String :=
  String.mk (s.data.map Char.toUpper)

/-- Embeds `DirectionUtils::fromString` from `models/Direction.cpp` (lines 13-32):
the uppercased copy `upper_str` is compared against the five names in order.
The `throw std::invalid_argument` arm is modelled by `none`. -/
def fromString (str : String) : Option Direction :=
  if upperAscii str = "UP" then some Direction.UP
  else if upperAscii str = "DOWN" then some Direction.DOWN
  else if upperAscii str = "LEFT" then some Direction.LEFT
  else if upperAscii str = "RIGHT" then some Direction.RIGHT
  else if upperAscii str = "NONE" then some Direction.NONE
  else none

/-- Embeds `DirectionUtils::isOpposite` from `models/Direction.cpp` (lines 62-67). -/
def isOpposite (dir1 dir2 : Direction) : Bool :=
  (dir1 = Direction.UP && dir2 = Direction.DOWN) ||
  (dir1 = Direction.DOWN && dir2 = Direction.UP) ||
  (dir1 = Direction.LEFT && dir2 = Direction.RIGHT) ||
  (dir1 = Direction.RIGHT && dir2 = Direction.LEFT)

end DirectionUtils

/-! ## Snake (`models/Snake.cpp`) -/

/-- Embeds `Snake::MoveResult` from `models/Snake.h`; the field initializers of the
C++ struct are the `default`s here (`Point` default-constructs to (0,0)). -/
structure MoveResult where
  moved : Bool := false
  newHead : Point := ⟨0, 0⟩
  tailRemoved : Bool := false
  removedTail : Point := ⟨0, 0⟩
deriving DecidableEq, Repr

/-- Embeds `class Snake` state from `models/Snake.h`: the deque of body cells
(head at index 0), the mirror set of cells, the current direction, the
invincibility countdown, the alive flag and the pending-growth counter. -/
structure Snake where
  blocks : List Point
  blockSet : Finset Point
  currentDirection : Direction
  invincibleRounds : Int
  alive : Bool
  growthPending : Int
deriving DecidableEq

namespace Snake

/-- The `switch (currentDirection_)` that computes the new head inside
`Snake::moveWithDelta` (lines 74-90); the `NONE` arm is unreachable there
(guarded by an early return) and is mapped to the identity. -/
def nextPoint (p : Point) (d : Direction) : Point :=
  match d with
  | Direction.UP => ⟨p.x, p.y - 1⟩
  | Direction.DOWN => ⟨p.x, p.y + 1⟩
  | Direction.LEFT => ⟨p.x - 1, p.y⟩
  | Direction.RIGHT => ⟨p.x + 1, p.y⟩
  | Direction.NONE => p

/-- Embeds `Snake::moveWithDelta` from `models/Snake.cpp` (lines 61-115), returning
the updated snake together with the `MoveResult`.  `blocks_[0]` and
`blocks_.back()` are only evaluated by the source on a live snake, whose
deque is non-empty; the `D ⟨0,0⟩` fallbacks are therefore never the value
actually read on the C++ paths being modelled. -/
def moveWithDelta (s : Snake) : Snake × MoveResult :=
  if s.alive = false then (s, {})
  else if s.currentDirection = Direction.NONE then (s, {})
  else
    let newHead := nextPoint (s.blocks.headD ⟨0, 0⟩) s.currentDirection
    if 0 < s.growthPending then
      ({ s with
          blocks := newHead :: s.blocks
          blockSet := insert newHead s.blockSet
          growthPending := s.growthPending - 1 },
       { moved := true, newHead := newHead })
    else
      let tail := s.blocks.getLastD ⟨0, 0⟩
      ({ s with
          blocks := newHead :: s.blocks.dropLast
          blockSet := insert newHead (s.blockSet.erase tail) },
       { moved := true, newHead := newHead, tailRemoved := true, removedTail := tail })

/-- Embeds `Snake::grow` from `models/Snake.cpp` (lines 122-124). -/
def grow (s : Snake) : Snake :=
  { s with growthPending := s.growthPending + 1 }

/-- Embeds `Snake::getLength` from `models/Snake.cpp` (lines 150-152). -/
def getLength (s : Snake) : Int :=
  (s.blocks.length : Int)

/-- Embeds `Snake::setDirection` from `models/Snake.cpp` (lines 179-186). -/
def setDirection (s : Snake) (dir : Direction) : Snake :=
  if s.currentDirection ≠ Direction.NONE &&
      DirectionUtils.isOpposite s.currentDirection dir then s
  else { s with currentDirection := dir }

/-- Embeds `Snake::kill` from `models/Snake.cpp` (lines 199-203). -/
def kill (s : Snake) : Snake :=
  { s with alive := false, blocks := [], blockSet := ∅ }

/-- Embeds `Snake::collidesWithSelf` from `models/Snake.cpp` (lines 222-234):
returns false for a chain of at most one cell, skips the head cell
(`blocks_.front()`), then queries the hash set. -/
def collidesWithSelf (s : Snake) (point : Point) : Bool :=
  if s.blocks.length ≤ 1 then false
  else if point = s.blocks.headD ⟨0, 0⟩ then false
  else decide (point ∈ s.blockSet)

/-- Embeds `Snake::collidesWithBody` from `models/Snake.cpp` (lines 244-247):
membership in the hash set, head included. -/
def collidesWithBody (s : Snake) (point : Point) : Bool :=
  decide (point ∈ s.blockSet)

end Snake

/-! ## Player (`models/Player.h`) -/

/-- Embeds `class Player` from `models/Player.h`.  The C++ vectors of players hold
`shared_ptr`s; every consumer modelled here skips null entries, so the
lists in this development hold the players themselves. -/
structure Player where
  uid : String
  id : String
  name : String
  color : String
  key : String
  token : String
  snake : Snake
  inGame : Bool
deriving DecidableEq

/-! ## Map manager (`managers/MapManager.cpp`) -/

/-- Embeds `MapManager::CollisionType` from `managers/MapManager.h`. -/
inductive CollisionType
  | NONE
  | WALL
  | SELF
  | OTHER_SNAKE
deriving DecidableEq, Repr

/-- The grid dimensions held by `MapManager` (`width_`, `height_`); the
`std::mt19937` member is passed explicitly as a draw stream where used. -/
structure MapManager where
  width : Int
  height : Int
deriving DecidableEq, Repr

namespace MapManager

/-- Embeds `MapManager::isValidPosition` from `managers/MapManager.cpp` (lines 25-27). -/
def isValidPosition (m : MapManager) (pos : Point) : Bool :=
  decide (0 ≤ pos.x ∧ pos.x < m.width ∧ 0 ≤ pos.y ∧ pos.y < m.height)

/-- Embeds `MapManager::isOutOfBounds` from `managers/MapManager.cpp` (lines 29-31). -/
def isOutOfBounds (m : MapManager) (pos : Point) : Bool :=
  !(m.isValidPosition pos)

/-- Embeds `MapManager::checkCollision` from `managers/MapManager.cpp` (lines
97-160): wall first, then self, then the loop over the other players;
the loop returns `OTHER_SNAKE` at the first other live in-game snake whose
body set holds `newPos`, which coincides with `List.any`.  The
`getInvincibleRounds` reads in the source feed logging only. -/
def checkCollision (m : MapManager) (player : Player) (newPos : Point)
    (allPlayers : List Player) : CollisionType :=
  if m.isOutOfBounds newPos then CollisionType.WALL
  else if player.snake.collidesWithSelf newPos then CollisionType.SELF
  else if allPlayers.any (fun other =>
      !(other.id = player.id : Bool) && other.inGame && other.snake.alive &&
        other.snake.collidesWithBody newPos) then
    CollisionType.OTHER_SNAKE
  else CollisionType.NONE

/-- One inner `for (attempt = 0; attempt < maxAttemptsPerFood; ...)` loop of
`MapManager::generateFoodFast` (lines 291-314).  `stream` is the sequence
of points drawn from `distX(rng_)`/`distY(rng_)`; `idx` is how many draws
have been consumed so far.  Returns the accepted cell (if any) and the new
draw count. -/
def genAttempts (m : MapManager) (occupiedCounts : Point → Option Int)
    (existingFoods : Finset Point) (generatedPositions : Finset Point)
    (stream : Nat → Point) : Nat → Nat → Option Point × Nat
  | 0, idx => (none, idx)
  | fuel + 1, idx =>
    let candidate := stream idx
    if !(m.isValidPosition candidate) then
      genAttempts m occupiedCounts existingFoods generatedPositions stream fuel (idx + 1)
    else if candidate ∈ existingFoods then
      genAttempts m occupiedCounts existingFoods generatedPositions stream fuel (idx + 1)
    else if candidate ∈ generatedPositions then
      genAttempts m occupiedCounts existingFoods generatedPositions stream fuel (idx + 1)
    else if (occupiedCounts candidate).isSome then
      genAttempts m occupiedCounts existingFoods generatedPositions stream fuel (idx + 1)
    else
      (some candidate, idx + 1)

/-- The outer `for (i = 0; i < count; ++i)` loop of
`MapManager::generateFoodFast` (lines 288-320), accumulating the foods and
the `generatedPositions` set. -/
def genLoop (m : MapManager) (occupiedCounts : Point → Option Int)
    (existingFoods : Finset Point) (stream : Nat → Point) :
    Nat → List Point → Finset Point → Nat → List Point
  | 0, foods, _, _ => foods
  | i + 1, foods, generatedPositions, idx =>
    match genAttempts m occupiedCounts existingFoods generatedPositions stream 100 idx with
    | (none, idx') => genLoop m occupiedCounts existingFoods stream i foods generatedPositions idx'
    | (some c, idx') =>
      genLoop m occupiedCounts existingFoods stream i (foods ++ [c])
        (insert c generatedPositions) idx'

/-- Embeds `MapManager::generateFoodFast` from `managers/MapManager.cpp` (lines
257-326).  `occupiedCounts` is the occupancy index (only key membership is
consulted, via `find != end`); `existingFoods` the current food set;
`stream` the random draws.  Returns the positions of the generated foods
(a `Food` carries nothing but its position). -/
def generateFoodFast (m : MapManager) (count : Int)
    (occupiedCounts : Point → Option Int) (existingFoods : Finset Point)
    (stream : Nat → Point) : List Point :=
  if count ≤ 0 then []
  else if m.width ≤ 0 ∨ m.height ≤ 0 then []
  else
    let totalCells := m.width * m.height
    let count' := if count > totalCells / 2 then max 1 (totalCells / 2) else count
    genLoop m occupiedCounts existingFoods stream count'.toNat [] ∅ 0

end MapManager

/-! ## World state (`models/GameState.cpp`) -/

/-- Embeds `class Food` from `models/Food.h`: a position and nothing else. -/
structure Food where
  position : Point
deriving DecidableEq, Repr

/-- Embeds `class GameState` from `models/GameState.h`: round counter, player
list, food vector with its mirror set and position→index map, the two
timestamps, and the four per-tick delta buffers. -/
structure GameState where
  currentRound : Int
  players : List Player
  foods : List Food
  foodSet : Finset Point
  foodIndex : Point → Option Nat
  timestamp : Int
  nextRoundTimestamp : Int
  joinedPlayers : List String
  diedPlayers : List String
  addedFoods : List Point
  removedFoods : List Point

namespace GameState

/-- The `GameState` default constructor (`models/GameState.cpp` lines
16-18): counters and timestamps zero, every container empty. -/
def init : GameState where
  currentRound := 0
  players := []
  foods := []
  foodSet := ∅
  foodIndex := fun _ => none
  timestamp := 0
  nextRoundTimestamp := 0
  joinedPlayers := []
  diedPlayers := []
  addedFoods := []
  removedFoods := []

/-- Embeds `GameState::clearDeltaTracking` from `models/GameState.cpp` (lines
488-493): empties the four delta buffers. -/
def clearDeltaTracking (st : GameState) : GameState :=
  { st with joinedPlayers := [], diedPlayers := [], addedFoods := [], removedFoods := [] }

/-- Embeds `GameState::reset` from `models/GameState.cpp` (lines 47-54).  Note the
source clears the food *vector* (`foods_.clear()`) but touches neither
`foodSet_` nor `foodIndex_`. -/
def reset (st : GameState) : GameState :=
  clearDeltaTracking
    { st with
        currentRound := 0
        players := []
        foods := []
        timestamp := 0
        nextRoundTimestamp := 0 }

/-- Embeds `GameState::removePlayer` from `models/GameState.cpp` (lines 89-98):
the erase-remove idiom keeps exactly the entries whose id differs. -/
def removePlayer (st : GameState) (playerId : String) : GameState :=
  { st with players := st.players.filter (fun p => !(p.id = playerId : Bool)) }

/-- Embeds `GameState::addFood` from `models/GameState.cpp` (lines 144-156):
no-op when the position is already in `foodSet_`; otherwise push onto the
vector, insert into the set and record the new index.  No delta buffer is
touched (`trackFoodAdded` is a separate member the caller must invoke). -/
def addFood (st : GameState) (food : Food) : GameState :=
  if food.position ∈ st.foodSet then st
  else
    { st with
        foods := st.foods ++ [food]
        foodSet := insert food.position st.foodSet
        foodIndex := fun p =>
          if p = food.position then some st.foods.length else st.foodIndex p }

/-- Embeds `GameState::removeFood` from `models/GameState.cpp` (lines 166-185):
look the position up in the index map; when absent do nothing, otherwise
swap the food to the back (updating the swapped food's index), pop, and
erase the position from the set and the map. -/
def removeFood (st : GameState) (position : Point) : GameState :=
  match st.foodIndex position with
  | none => st
  | some index =>
    let lastIndex := st.foods.length - 1
    let st1 :=
      if index ≠ lastIndex then
        let lastFood := st.foods.getD lastIndex ⟨⟨0, 0⟩⟩
        { st with
            foods := st.foods.set index lastFood
            foodIndex := fun p =>
              if p = lastFood.position then some index else st.foodIndex p }
      else st
    { st1 with
        foods := st1.foods.dropLast
        foodSet := st1.foodSet.erase position
        foodIndex := fun p => if p = position then none else st1.foodIndex p }

/-- Embeds `GameState::clearFood` from `models/GameState.cpp` (lines 190-194). -/
def clearFood (st : GameState) : GameState :=
  { st with foods := [], foodSet := ∅, foodIndex := fun _ => none }

/-- Embeds `GameState::hasFoodAt` from `models/GameState.cpp` (lines 209-211). -/
def hasFoodAt (st : GameState) (position : Point) : Bool :=
  decide (position ∈ st.foodSet)

/-- Embeds `GameState::trackFoodAdded` from `models/GameState.cpp` (lines 471-473). -/
def trackFoodAdded (st : GameState) (position : Point) : GameState :=
  { st with addedFoods := st.addedFoods ++ [position] }

/-- Embeds `GameState::trackFoodRemoved` from `models/GameState.cpp` (lines 479-481). -/
def trackFoodRemoved (st : GameState) (position : Point) : GameState :=
  { st with removedFoods := st.removedFoods ++ [position] }

end GameState

/-! ## Player manager (`managers/PlayerManager.cpp`) -/

/-- One row of the `players` table (`uid PK, paste, key, created_at,
last_login`) as read and written by `PlayerManager::login`. -/
structure AccountRow where
  uid : String
  paste : String
  key : String
  createdAt : Int
  lastLogin : Int
deriving DecidableEq, Repr

/-- The `PlayerManager` state consulted by `login` / `validateKey`: the
database table and the two in-memory caches (`uidToKey_`, `keyToUid_`).
The session maps (`players_`, `tokenToPlayerId_`) play no part in either
member and are omitted. -/
structure PlayerManagerState where
  db : List AccountRow
  uidToKey : String → Option String
  keyToUid : String → Option String

namespace PlayerManager

/-- Embeds `PlayerManager::login` from `managers/PlayerManager.cpp` (lines 30-107).
`verified` is the outcome of `checkLogin` (an external HTTPS identity
check); `freshKey` stands for the random `generateKey(uid)` draw of this
call; `now` for the wall-clock reads.  Database statements are modelled on
the row list with SQL semantics: `SELECT ... WHERE uid = ?` is the first
matching row, `UPDATE ... WHERE uid = ?` touches every matching row,
`INSERT` appends; `executeWithParams` is assumed to succeed, so the
`return ""` arms for database failure are unreachable.  Failure is the
empty string, exactly as in the source. -/
def login (st : PlayerManagerState) (uid paste : String) (verified : Bool)
    (freshKey : String) (now : Int) : String × PlayerManagerState :=
  if verified = false then ("", st)
  else
    match st.db.find? (fun r => r.uid = uid) with
    | some row =>
      if row.paste = paste then
        (row.key,
         { st with
            db := st.db.map (fun r =>
              if r.uid = uid then { r with lastLogin := now } else r) })
      else
        let newKey := freshKey
        (newKey,
         { st with
            db := st.db.map (fun r =>
              if r.uid = uid then { r with paste := paste, key := newKey, lastLogin := now }
              else r)
            keyToUid := fun k =>
              if k = newKey then some uid
              else if k = row.key then none
              else st.keyToUid k
            uidToKey := fun u => if u = uid then some newKey else st.uidToKey u })
    | none =>
      (freshKey,
       { st with
          db := st.db ++ [⟨uid, paste, freshKey, now, now⟩]
          uidToKey := fun u => if u = uid then some freshKey else st.uidToKey u
          keyToUid := fun k => if k = freshKey then some uid else st.keyToUid k })

/-- Embeds `PlayerManager::validateKey` from `managers/PlayerManager.cpp` (lines
209-234): the in-memory cache first, then the read-only database query
`SELECT uid FROM players WHERE key = ?`. -/
def validateKey (st : PlayerManagerState) (key : String) : Option String :=
  match st.keyToUid key with
  | some uid => some uid
  | none => (st.db.find? (fun r => r.key = key)).map (fun r => r.uid)

end PlayerManager

/-- The snake representation invariant stated by the spec's data model:
the auxiliary set and the chain contain exactly the same cells. -/
def Snake.wf (s : Snake) : Prop :=
  s.blockSet = s.blocks.toFinset

/-- Overwrite a player's invincibility counter, leaving all else alone;
used to state that collision classification ignores invincibility. -/
def setInvincibility (p : Player) (k : Int) : Player :=
  { p with snake := { p.snake with invincibleRounds := k } }

/-- Modelled from the spec: the collision classifier exactly as §4.2 words
it — out of bounds → WALL; else own body excluding the current head
contains the cell → SELF; else some other live, in-game snake's body set
contains the cell → OTHER_SNAKE; else NONE. -/
def MapManager.checkCollisionSpec (m : MapManager) (player : Player)
    (newPos : Point) (allPlayers : List Player) : CollisionType :=
  if ¬ (0 ≤ newPos.x ∧ newPos.x < m.width ∧ 0 ≤ newPos.y ∧ newPos.y < m.height) then
    CollisionType.WALL
  else if newPos ∈ player.snake.blockSet.erase (player.snake.blocks.headD ⟨0, 0⟩) then
    CollisionType.SELF
  else if ∃ other ∈ allPlayers, other.id ≠ player.id ∧ other.inGame = true ∧
      other.snake.alive = true ∧ newPos ∈ other.snake.blockSet then
    CollisionType.OTHER_SNAKE
  else CollisionType.NONE

/-! ## Shared concrete values used by witnesses and counterexamples -/

/-- A three-cell snake heading right, as in spec scenario S1. -/
def sampleSnake : Snake where
  blocks := [⟨3, 3⟩, ⟨2, 3⟩, ⟨1, 3⟩]
  blockSet := {⟨3, 3⟩, ⟨2, 3⟩, ⟨1, 3⟩}
  currentDirection := Direction.RIGHT
  invincibleRounds := 0
  alive := true
  growthPending := 0

/-- An empty `PlayerManager` state: empty table, empty caches. -/
def pmInit : PlayerManagerState where
  db := []
  uidToKey := fun _ => none
  keyToUid := fun _ => none

/-- A live snake chasing its own tail: its head (0,0) moving DOWN lands
exactly on its tail cell (0,1). -/
def tailChaser : Snake where
  blocks := [⟨0, 0⟩, ⟨1, 0⟩, ⟨1, 1⟩, ⟨0, 1⟩]
  blockSet := {⟨0, 0⟩, ⟨1, 0⟩, ⟨1, 1⟩, ⟨0, 1⟩}
  currentDirection := Direction.DOWN
  invincibleRounds := 0
  alive := true
  growthPending := 0

/-- The 10×10 grid of the spec's end-to-end scenarios. -/
def mapTen : MapManager := ⟨10, 10⟩

/-- Player "A" of the spec's scenarios, carrying the sample snake. -/
def playerA : Player :=
  ⟨"1", "A", "A", "#ff0000", "", "", sampleSnake, true⟩

/-- The degenerate single-cell grid used in the C5 counterexample. -/
def mapOne : MapManager := ⟨1, 1⟩

/-- The concrete food used in the C4 counterexample. -/
def foodA : Food := ⟨⟨2, 3⟩⟩

/-- The world state reached by adding one food at (1,1) and then calling
`reset`; used to exhibit the C8 defect. -/
def staleState : GameState :=
  (GameState.init.addFood ⟨⟨1, 1⟩⟩).reset

/-! ## Claims -/

/-- C3: `setDirection` leaves the stored direction unchanged when the
current direction is non-NONE and the argument is its opposite, stores the
argument otherwise, and consequently the stored direction is never the
opposite of the previously stored non-NONE direction. -/
theorem setDirection_never_reversed (s : Snake) (d : Direction) :
    (s.currentDirection ≠ Direction.NONE →
      DirectionUtils.isOpposite s.currentDirection d = true →
        s.setDirection d = s) ∧
    ((s.currentDirection = Direction.NONE ∨
        DirectionUtils.isOpposite s.currentDirection d = false) →
      (s.setDirection d).currentDirection = d) ∧
    (s.currentDirection ≠ Direction.NONE →
      DirectionUtils.isOpposite s.currentDirection
        ((s.setDirection d).currentDirection) = false) := by
  cases hc : s.currentDirection <;> cases d <;>
    simp_all [Snake.setDirection, DirectionUtils.isOpposite, hc]

/-- Witness for C3: the sample snake moving RIGHT ignores a LEFT request
and accepts an UP request. -/
theorem setDirection_never_reversed_witness :
    sampleSnake.setDirection Direction.LEFT = sampleSnake ∧
    (sampleSnake.setDirection Direction.UP).currentDirection = Direction.UP := by
  constructor
  · exact (setDirection_never_reversed sampleSnake Direction.LEFT).1
      (by decide) (by decide)
  · exact (setDirection_never_reversed sampleSnake Direction.UP).2.1
      (Or.inr (by decide))

/-- C7: direction parsing is case-insensitive and total on the five names:
`fromString` succeeds exactly when the uppercased input is one of the five
direction names (yielding that direction) and fails on every other string,
and parsing a printed direction round-trips. -/
theorem fromString_case_insensitive_total (s : String) :
    (∀ d : Direction,
      DirectionUtils.fromString s = some d ↔
        DirectionUtils.upperAscii s = DirectionUtils.toString d) ∧
    (DirectionUtils.fromString s = none ↔
      DirectionUtils.upperAscii s ∉ (["UP", "DOWN", "LEFT", "RIGHT", "NONE"] : List String)) ∧
    (∀ d : Direction,
      DirectionUtils.fromString (DirectionUtils.toString d) = some d) := by
  refine ⟨?_, ?_, ?_⟩
  · intro d
    cases d <;>
      · simp only [DirectionUtils.fromString, DirectionUtils.toString]
        split_ifs <;> simp_all
  · simp only [DirectionUtils.fromString]
    split_ifs <;> simp_all
  · intro d
    cases d <;> decide

/-- C9: `moveWithDelta` on a dead snake reports `moved = false` and changes
nothing (the returned snake is the input snake, so chain, body set,
direction and pending growth are all untouched), and `kill` is idempotent,
always yielding a dead snake with an empty chain and an empty body set. -/
theorem dead_snake_noop_kill_idempotent (s : Snake) :
    (s.alive = false → s.moveWithDelta = (s, {})) ∧
    s.kill.kill = s.kill ∧
    s.kill.alive = false ∧
    s.kill.blocks = [] ∧
    s.kill.blockSet = ∅ := by
  refine ⟨fun h => ?_, rfl, rfl, rfl, rfl⟩
  simp [Snake.moveWithDelta, h]

/-- Witness for C9: the sample snake after `kill` neither moves nor changes. -/
theorem dead_snake_noop_kill_idempotent_witness :
    sampleSnake.kill.moveWithDelta = (sampleSnake.kill, {}) :=
  (dead_snake_noop_kill_idempotent sampleSnake.kill).1 rfl

/-- C4 counterexample: on the initial state, which has no food at (2,3),
`addFood` appends the food to the vector and records its index, but the
delta log's `added_food` buffer stays empty — the position is *not*
recorded there, contrary to the claim. -/
theorem addFood_counterexample :
    GameState.init.hasFoodAt ⟨2, 3⟩ = false ∧
    (GameState.init.addFood foodA).foods = [foodA] ∧
    (GameState.init.addFood foodA).addedFoods = [] ∧
    ⟨2, 3⟩ ∉ (GameState.init.addFood foodA).addedFoods := by
  refine ⟨by decide, by decide, ?_, ?_⟩ <;> simp [GameState.addFood, GameState.init]

/-- C4 (amended): `addFood` on a state that already has food at the
position is a complete no-op; otherwise it appends the food to the vector,
inserts the position into the food set, records the new index in the
position→index map, and leaves all four delta-log buffers unchanged — the
`added_food` entry is recorded separately by `trackFoodAdded`, which
appends the position to that buffer. -/
theorem addFood_spec (st : GameState) (f : Food) (pos : Point) :
    (f.position ∈ st.foodSet → st.addFood f = st) ∧
    (f.position ∉ st.foodSet →
      (st.addFood f).foods = st.foods ++ [f] ∧
      (st.addFood f).foodSet = insert f.position st.foodSet ∧
      (st.addFood f).foodIndex f.position = some st.foods.length ∧
      (st.addFood f).addedFoods = st.addedFoods ∧
      (st.addFood f).removedFoods = st.removedFoods ∧
      (st.addFood f).joinedPlayers = st.joinedPlayers ∧
      (st.addFood f).diedPlayers = st.diedPlayers) ∧
    (st.trackFoodAdded pos).addedFoods = st.addedFoods ++ [pos] := by
  refine ⟨fun h => ?_, fun h => ?_, rfl⟩
  · simp [GameState.addFood, h]
  · simp [GameState.addFood, h]

/-- Witness for C4's amended theorem: both branches at concrete states. -/
theorem addFood_spec_witness :
    GameState.init.addFood foodA = GameState.init →
      ((GameState.init.addFood foodA).addFood foodA).foods = [foodA] := by
  intro
  have h1 := (addFood_spec (GameState.init.addFood foodA) foodA ⟨2, 3⟩).1 (by decide)
  have h2 := (addFood_spec GameState.init foodA ⟨2, 3⟩).2.1 (by decide)
  rw [h1, h2.1]
  decide

/-- C10: absent-key removals change nothing.  In every state whose
position→index map only holds positions that are in the food set (true of
every state the program constructs, since the two are always updated
together), `removeFood` at a position with no food returns the state
unchanged in every field, and `removePlayer` with an id held by no player
likewise returns the state unchanged. -/
theorem absent_removals_noop (st : GameState) (pos : Point) (playerId : String)
    (hdom : ∀ p : Point, st.foodIndex p ≠ none → p ∈ st.foodSet)
    (hfood : st.hasFoodAt pos = false)
    (hplayer : ∀ q ∈ st.players, q.id ≠ playerId) :
    st.removeFood pos = st ∧ st.removePlayer playerId = st := by
  constructor
  · have hidx : st.foodIndex pos = none := by
      by_contra h
      have hmem : pos ∈ st.foodSet := hdom pos h
      have hnot : pos ∉ st.foodSet := by simpa [GameState.hasFoodAt] using hfood
      exact hnot hmem
    simp [GameState.removeFood, hidx]
  · have hfilter : st.players.filter (fun q => !(q.id = playerId : Bool)) = st.players :=
      List.filter_eq_self.mpr (fun q hq => by simpa using hplayer q hq)
    simp [GameState.removePlayer, hfilter]

/-- Witness for C10 at the initial state (no foods, no players). -/
theorem absent_removals_noop_witness :
    GameState.init.removeFood ⟨4, 4⟩ = GameState.init := by
  exact (absent_removals_noop GameState.init ⟨4, 4⟩ "p_1_000000"
    (fun p h => absurd rfl h) (by decide) (fun q hq => by cases hq)).1

/-- C8: evaluation at the failing input.  `reset` clears the food vector
but neither the food set nor the position→index map, so afterwards the
board has no food yet `hasFoodAt (1,1)` still reports true, the index map
still sends (1,1) to index 0, and a subsequent `addFood` at (1,1) is
swallowed as a duplicate, leaving the vector empty. -/
theorem reset_breaks_food_index :
    staleState.foods = [] ∧
    staleState.hasFoodAt ⟨1, 1⟩ = true ∧
    staleState.foodIndex ⟨1, 1⟩ = some 0 ∧
    (staleState.addFood ⟨⟨1, 1⟩⟩).foods = [] := by
  refine ⟨by decide, by decide, ?_, by decide⟩
  simp [staleState, GameState.reset, GameState.clearDeltaTracking, GameState.addFood,
    GameState.init]

/-- The last element of a non-empty list (with default) is a member. -/
theorem getLastD_mem_of_ne_nil {α : Type} (l : List α) (d : α) (h : l ≠ []) :
    l.getLastD d ∈ l := by
  induction l generalizing d with
  | nil => simp at h
  | cons a t ih =>
    rw [List.getLastD_cons]
    cases t with
    | nil => simp
    | cons b u => exact List.mem_cons_of_mem a (ih a (by simp))

/-- C2 counterexample: `tailChaser` is a well-formed (set = chain) alive
snake with a non-NONE direction and zero pending growth that performs a
move, yet its pre-move tail cell (0,1) — which is also the new head — is
still in the body set after the move, contradicting the claim that the
old tail cell is absent after every non-growth move. -/
theorem moveWithDelta_tail_counterexample :
    tailChaser.blockSet = tailChaser.blocks.toFinset ∧
    tailChaser.alive = true ∧
    tailChaser.currentDirection ≠ Direction.NONE ∧
    tailChaser.growthPending = 0 ∧
    (tailChaser.moveWithDelta).2.moved = true ∧
    tailChaser.blocks.getLastD ⟨0, 0⟩ = ⟨0, 1⟩ ∧
    ⟨0, 1⟩ ∈ (tailChaser.moveWithDelta).1.blockSet := by
  decide

/-- C2 (amended): for every alive snake with a non-NONE direction and a
non-empty chain: a zero-pending-growth move keeps the length unchanged and
removes the old tail cell from the body set *provided the new head differs
from that tail cell* (as is the case whenever the move passed collision
classification, since landing on the tail classifies as SELF); a
positive-pending-growth move removes no tail, keeps the old tail in the
chain, increases the length by exactly 1 and decreases pending growth
by 1. -/
theorem moveWithDelta_tail_spec (s : Snake)
    (halive : s.alive = true) (hdir : s.currentDirection ≠ Direction.NONE)
    (hne : s.blocks ≠ []) :
    (s.growthPending = 0 →
      (s.moveWithDelta).2.moved = true ∧
      (s.moveWithDelta).1.blocks.length = s.blocks.length ∧
      (Snake.nextPoint (s.blocks.headD ⟨0, 0⟩) s.currentDirection ≠
          s.blocks.getLastD ⟨0, 0⟩ →
        s.blocks.getLastD ⟨0, 0⟩ ∉ (s.moveWithDelta).1.blockSet)) ∧
    (0 < s.growthPending →
      (s.moveWithDelta).2.moved = true ∧
      (s.moveWithDelta).2.tailRemoved = false ∧
      s.blocks.getLastD ⟨0, 0⟩ ∈ (s.moveWithDelta).1.blocks ∧
      (s.moveWithDelta).1.blocks.length = s.blocks.length + 1 ∧
      (s.moveWithDelta).1.growthPending = s.growthPending - 1) := by
  have hlen : 0 < s.blocks.length := List.length_pos.mpr hne
  constructor
  · intro hg
    have hng : ¬ (0 < s.growthPending) := by omega
    refine ⟨?_, ?_, ?_⟩
    · simp [Snake.moveWithDelta, halive, hdir, hng]
    · simp only [Snake.moveWithDelta, halive, hdir, hng]
      simp [List.length_dropLast]
      omega
    · intro hnewheadtail hmem
      rw [List.getLastD_eq_getLast?, List.headD_eq_head?] at hnewheadtail
      simp [Snake.moveWithDelta, halive, hdir, hng] at hmem
      exact hnewheadtail hmem.symm
  · intro hg
    have hmem : s.blocks.getLastD ⟨0, 0⟩ ∈ s.blocks :=
      getLastD_mem_of_ne_nil s.blocks ⟨0, 0⟩ hne
    rw [List.getLastD_eq_getLast?] at hmem
    refine ⟨?_, ?_, ?_, ?_, ?_⟩ <;>
      simp [Snake.moveWithDelta, halive, hdir, hg, hmem]

/-- Witness for C2's amended theorem: the sample three-cell snake moving
RIGHT drops its tail (1,3) from the body set and keeps length 3; the same
snake with one pending growth keeps its tail and reaches length 4. -/
theorem moveWithDelta_tail_spec_witness :
    sampleSnake.blocks.getLastD ⟨0, 0⟩ ∉ (sampleSnake.moveWithDelta).1.blockSet ∧
    ({ sampleSnake with growthPending := 1 }.moveWithDelta).1.blocks.length =
      sampleSnake.blocks.length + 1 := by
  constructor
  · exact ((moveWithDelta_tail_spec sampleSnake rfl (by decide) (by decide)).1
      rfl).2.2 (by decide)
  · exact ((moveWithDelta_tail_spec { sampleSnake with growthPending := 1 } rfl
      (by decide) (by decide)).2 (by decide)).2.2.2.1

/-- For a snake whose set mirrors its chain, `collidesWithSelf` tests
membership in the body cells with the current head removed. -/
theorem collidesWithSelf_iff (s : Snake) (hwf : s.blockSet = s.blocks.toFinset)
    (p : Point) :
    s.collidesWithSelf p = true ↔
      p ∈ s.blockSet.erase (s.blocks.headD ⟨0, 0⟩) := by
  rcases hb : s.blocks with _ | ⟨a, t⟩
  · rw [hb] at hwf
    simp [Snake.collidesWithSelf, hb, hwf]
  · rcases t with _ | ⟨b, u⟩
    · rw [hb] at hwf
      simp [Snake.collidesWithSelf, hb, hwf]
    · by_cases hpa : p = a
      · simp [Snake.collidesWithSelf, hb, hpa]
      · simp [Snake.collidesWithSelf, hb, hpa, Finset.mem_erase]

/-- C1: for a player whose snake's set mirrors its chain, `checkCollision`
classifies exactly as the spec's fixed-priority rules (wall, then own body
excluding the current head, then any other live in-game snake's body set,
else none), and the classification is unchanged when the player's and all
listed snakes' invincibility counters are overwritten arbitrarily. -/
theorem checkCollision_matches_spec (m : MapManager) (player : Player)
    (newPos : Point) (allPlayers : List Player)
    (hwf : player.snake.blockSet = player.snake.blocks.toFinset) :
    m.checkCollision player newPos allPlayers =
      m.checkCollisionSpec player newPos allPlayers ∧
    ∀ (k : Int) (g : Player → Int),
      m.checkCollision (setInvincibility player k) newPos
        (allPlayers.map fun q => setInvincibility q (g q)) =
      m.checkCollision player newPos allPlayers := by
  constructor
  · simp only [MapManager.checkCollision, MapManager.checkCollisionSpec]
    refine if_congr ?_ rfl (if_congr ?_ rfl (if_congr ?_ rfl rfl))
    · simp only [MapManager.isOutOfBounds, MapManager.isValidPosition]
      simp
      omega
    · exact collidesWithSelf_iff player.snake hwf newPos
    · simp [List.any_eq_true, Snake.collidesWithBody, and_assoc]
  · intro k g
    simp only [MapManager.checkCollision, List.any_map]
    rfl

/-- Witness for C1: the classifier agrees with the spec classifier for
player A probing (4,3) on the 10×10 grid. -/
theorem checkCollision_matches_spec_witness :
    mapTen.checkCollision playerA ⟨4, 3⟩ [playerA] =
      mapTen.checkCollisionSpec playerA ⟨4, 3⟩ [playerA] :=
  (checkCollision_matches_spec mapTen playerA ⟨4, 3⟩ [playerA] (by decide)).1

/-- Finding by uid over a uid-keyed row update: updating every row whose
uid matches (as SQL `UPDATE ... WHERE uid = ?` does) maps the found row. -/
theorem find_uid_update (l : List AccountRow) (uid : String)
    (f : AccountRow → AccountRow) (hf : ∀ r, (f r).uid = r.uid) :
    (l.map fun r => if r.uid = uid then f r else r).find?
        (fun r => r.uid = uid) =
      (l.find? (fun r => r.uid = uid)).map f := by
  induction l with
  | nil => rfl
  | cons a t ih =>
    by_cases ha : a.uid = uid
    · simp [List.find?_cons, ha, hf]
    · simp [List.find?_cons, ha, ih]

/-- After a verified `login`, the database holds a row for the uid whose
paste is the supplied proof and whose key is the returned key. -/
theorem login_row (st : PlayerManagerState) (uid p1 k1 : String) (t1 : Int) :
    ∃ row : AccountRow,
      (PlayerManager.login st uid p1 true k1 t1).2.db.find?
          (fun r => r.uid = uid) = some row ∧
      row.paste = p1 ∧
      row.key = (PlayerManager.login st uid p1 true k1 t1).1 := by
  cases hfind : st.db.find? (fun r => r.uid = uid) with
  | none =>
    refine ⟨⟨uid, p1, k1, t1, t1⟩, ?_, rfl, ?_⟩
    · simp [PlayerManager.login, hfind, List.find?_append]
    · simp [PlayerManager.login, hfind]
  | some row =>
    by_cases hp : row.paste = p1
    · refine ⟨{ row with lastLogin := t1 }, ?_, by simpa using hp, ?_⟩
      · simp only [PlayerManager.login, hfind]
        rw [if_neg (by simp), if_pos hp]
        dsimp only
        rw [find_uid_update st.db uid (fun r => { r with lastLogin := t1 })
          (fun r => rfl), hfind]
        rfl
      · simp only [PlayerManager.login, hfind]
        rw [if_neg (by simp), if_pos hp]
    · refine ⟨{ row with paste := p1, key := k1, lastLogin := t1 }, ?_, rfl, ?_⟩
      · simp only [PlayerManager.login, hfind]
        rw [if_neg (by simp), if_neg hp]
        dsimp only
        rw [find_uid_update st.db uid
          (fun r => { r with paste := p1, key := k1, lastLogin := t1 })
          (fun r => rfl), hfind]
        rfl
      · simp only [PlayerManager.login, hfind]
        rw [if_neg (by simp), if_neg hp]

/-- C6: with identity verification passing, logging in twice with the same
proof returns the same key both times; logging in again with a different
proof returns the freshly generated key (assumed distinct from the stored
one, as a fresh SHA-256 draw is), and afterwards the first key no longer
resolves to the uid through `validateKey` (neither via the cache, from
which it is erased, nor via the database, where the uid's rows now carry
the new key). -/
theorem login_key_laws (st : PlayerManagerState) (uid p1 p2 k1 k2 : String)
    (t1 t2 : Int) :
    (PlayerManager.login (PlayerManager.login st uid p1 true k1 t1).2
        uid p1 true k2 t2).1 = (PlayerManager.login st uid p1 true k1 t1).1 ∧
    (p1 ≠ p2 →
      k2 ≠ (PlayerManager.login st uid p1 true k1 t1).1 →
      (PlayerManager.login (PlayerManager.login st uid p1 true k1 t1).2
          uid p2 true k2 t2).1 = k2 ∧
      PlayerManager.validateKey
          (PlayerManager.login (PlayerManager.login st uid p1 true k1 t1).2
            uid p2 true k2 t2).2
          (PlayerManager.login st uid p1 true k1 t1).1 ≠ some uid) := by
  obtain ⟨row, hrow, hpaste, hkey⟩ := login_row st uid p1 k1 t1
  set L1 := PlayerManager.login st uid p1 true k1 t1 with hL1
  constructor
  · simp only [PlayerManager.login, hrow]
    rw [if_neg (by simp), if_pos hpaste]
    exact hkey
  · intro hpp hk2
    have hp2 : ¬ (row.paste = p2) := by rw [hpaste]; exact hpp
    constructor
    · simp only [PlayerManager.login, hrow]
      rw [if_neg (by simp), if_neg hp2]
    · simp only [PlayerManager.login, hrow]
      rw [if_neg (by simp), if_neg hp2]
      simp only [PlayerManager.validateKey]
      rw [if_neg (fun h => hk2 h.symm), if_pos hkey.symm]
      intro hcontra
      obtain ⟨r, hfr, huidr⟩ := Option.map_eq_some'.mp hcontra
      have hkeyr : r.key = L1.1 := by simpa using List.find?_some hfr
      have hmemr := List.mem_of_find?_eq_some hfr
      obtain ⟨orig, _, horigeq⟩ := List.mem_map.mp hmemr
      by_cases ho : orig.uid = uid
      · rw [if_pos ho] at horigeq
        rw [← horigeq] at hkeyr
        exact hk2 hkeyr
      · rw [if_neg ho] at horigeq
        rw [← horigeq] at huidr
        exact ho huidr

/-- Witness for C6: from the empty manager state, logging in uid "u" with
proof "a" (getting fresh key "k1") and then with proof "b" returns the
second fresh key "k2". -/
theorem login_key_laws_witness :
    (PlayerManager.login (PlayerManager.login pmInit "u" "a" true "k1" 0).2
        "u" "b" true "k2" 0).1 = "k2" :=
  ((login_key_laws pmInit "u" "a" "b" "k1" "k2" 0 0).2
    (by decide) (by decide)).1

/-- Any cell accepted by the inner attempt loop passed all four checks:
in bounds, not an existing food, not generated earlier this call, and
absent from the occupancy index. -/
theorem genAttempts_sound (m : MapManager) (occ : Point → Option Int)
    (ex gen : Finset Point) (stream : Nat → Point) :
    ∀ (fuel idx : Nat) (c : Point) (idx' : Nat),
      MapManager.genAttempts m occ ex gen stream fuel idx = (some c, idx') →
      m.isValidPosition c = true ∧ c ∉ ex ∧ c ∉ gen ∧ occ c = none := by
  intro fuel
  induction fuel with
  | zero =>
    intro idx c idx' h
    simp [MapManager.genAttempts] at h
  | succ n ih =>
    intro idx c idx' h
    simp only [MapManager.genAttempts] at h
    split_ifs at h with h1 h2 h3 h4
    · exact ih _ _ _ h
    · exact ih _ _ _ h
    · exact ih _ _ _ h
    · exact ih _ _ _ h
    · simp only [Prod.mk.injEq, Option.some.injEq] at h
      obtain ⟨rfl, -⟩ := h
      refine ⟨by simpa using h1, h2, h3, ?_⟩
      simpa using h4

/-- Invariant of the outer generation loop: the properties of the
accumulated foods are preserved, the list stays duplicate-free (every food
is tracked in `generatedPositions`), and at most one food is added per
iteration. -/
theorem genLoop_sound (m : MapManager) (occ : Point → Option Int)
    (ex : Finset Point) (stream : Nat → Point) :
    ∀ (n : Nat) (foods : List Point) (gen : Finset Point) (idx : Nat),
      (∀ p ∈ foods, m.isValidPosition p = true ∧ p ∉ ex ∧ occ p = none) →
      foods.Nodup →
      (∀ p ∈ foods, p ∈ gen) →
      (∀ p ∈ MapManager.genLoop m occ ex stream n foods gen idx,
          m.isValidPosition p = true ∧ p ∉ ex ∧ occ p = none) ∧
      (MapManager.genLoop m occ ex stream n foods gen idx).Nodup ∧
      (MapManager.genLoop m occ ex stream n foods gen idx).length ≤
        foods.length + n := by
  intro n
  induction n with
  | zero =>
    intro foods gen idx hP hnd _
    exact ⟨by simpa [MapManager.genLoop] using hP, by simpa [MapManager.genLoop] using hnd,
      by simp [MapManager.genLoop]⟩
  | succ n ih =>
    intro foods gen idx hP hnd hsub
    simp only [MapManager.genLoop]
    cases hga : MapManager.genAttempts m occ ex gen stream 100 idx with
    | mk o idx' =>
      cases o with
      | none =>
        dsimp only
        obtain ⟨a, b, c⟩ := ih foods gen idx' hP hnd hsub
        exact ⟨a, b, by omega⟩
      | some c =>
        dsimp only
        have hc := genAttempts_sound m occ ex gen stream 100 idx c idx' hga
        have hcnot : c ∉ foods := fun hmem => hc.2.2.1 (hsub c hmem)
        have hP' : ∀ p ∈ foods ++ [c],
            m.isValidPosition p = true ∧ p ∉ ex ∧ occ p = none := by
          intro p hp
          rcases List.mem_append.mp hp with hp | hp
          · exact hP p hp
          · rcases List.mem_singleton.mp hp with rfl
            exact ⟨hc.1, hc.2.1, hc.2.2.2⟩
        have hnd' : (foods ++ [c]).Nodup := by
          simp [List.nodup_append, hnd, hcnot]
        have hsub' : ∀ p ∈ foods ++ [c], p ∈ insert c gen := by
          intro p hp
          rcases List.mem_append.mp hp with hp | hp
          · exact Finset.mem_insert_of_mem (hsub p hp)
          · rcases List.mem_singleton.mp hp with rfl
            exact Finset.mem_insert_self _ _
        obtain ⟨a, b, hlen⟩ := ih (foods ++ [c]) (insert c gen) idx' hP' hnd' hsub'
        refine ⟨a, b, ?_⟩
        simp only [List.length_append, List.length_singleton] at hlen
        omega

/-- C5 counterexample: on a 1×1 grid, W·H/2 = 0, yet requesting 2 foods on
an empty board yields one food — the source caps the requested count at
`std::max(1, W·H/2)`, not at W·H/2 as the claim states. -/
theorem generateFoodFast_counterexample :
    MapManager.generateFoodFast mapOne 2 (fun _ => none) ∅ (fun _ => ⟨0, 0⟩) =
      [⟨0, 0⟩] ∧
    ¬ (((MapManager.generateFoodFast mapOne 2 (fun _ => none) ∅
          (fun _ => ⟨0, 0⟩)).length : Int) ≤
        mapOne.width * mapOne.height / 2) := by
  constructor
  · decide
  · decide

/-- C5 (amended): every food returned by `generateFoodFast` is in bounds,
not in the supplied existing-food set, and not in the supplied occupancy
index; no cell is returned twice in one call; and a request exceeding
W·H/2 is reduced to max(1, W·H/2) — i.e. capped at W·H/2 whenever the grid
has at least two cells, while on a single-cell grid one food may still be
generated. -/
theorem generateFoodFast_spec (m : MapManager) (count : Int)
    (occ : Point → Option Int) (ex : Finset Point) (stream : Nat → Point) :
    (∀ p ∈ MapManager.generateFoodFast m count occ ex stream,
        m.isValidPosition p = true ∧ p ∉ ex ∧ occ p = none) ∧
    (MapManager.generateFoodFast m count occ ex stream).Nodup ∧
    (count > m.width * m.height / 2 →
      ((MapManager.generateFoodFast m count occ ex stream).length : Int) ≤
        max 1 (m.width * m.height / 2)) := by
  have hM : (1 : Int) ≤ max 1 (m.width * m.height / 2) := le_max_left _ _
  unfold MapManager.generateFoodFast
  dsimp only
  split_ifs with hc hwh hcap
  · refine ⟨by simp, List.nodup_nil, fun _ => ?_⟩
    simp only [List.length_nil, Nat.cast_zero]
    omega
  · refine ⟨by simp, List.nodup_nil, fun _ => ?_⟩
    simp only [List.length_nil, Nat.cast_zero]
    omega
  · obtain ⟨a, b, hlen⟩ := genLoop_sound m occ ex stream
      (max 1 (m.width * m.height / 2)).toNat [] ∅ 0
      (by simp) List.nodup_nil (by simp)
    refine ⟨a, b, fun _ => ?_⟩
    have h2 : ((max 1 (m.width * m.height / 2)).toNat : Int) =
        max 1 (m.width * m.height / 2) := Int.toNat_of_nonneg (by omega)
    simp only [List.length_nil, Nat.zero_add] at hlen
    omega
  · obtain ⟨a, b, hlen⟩ := genLoop_sound m occ ex stream
      count.toNat [] ∅ 0 (by simp) List.nodup_nil (by simp)
    exact ⟨a, b, fun hgt => absurd hgt hcap⟩

/-- Witness for C5's amended theorem: on the 10×10 grid the generated food
(5,5) is in bounds, and a request of 51 foods (over the 50-cell cap) obeys
the capped bound. -/
theorem generateFoodFast_spec_witness :
    MapManager.isValidPosition mapTen ⟨5, 5⟩ = true ∧
    ((MapManager.generateFoodFast mapTen 51 (fun _ => none) ∅
        (fun _ => ⟨5, 5⟩)).length : Int) ≤
      max 1 (mapTen.width * mapTen.height / 2) := by
  constructor
  · exact ((generateFoodFast_spec mapTen 1 (fun _ => none) ∅
      (fun _ => ⟨5, 5⟩)).1 ⟨5, 5⟩ (by decide)).1
  · exact (generateFoodFast_spec mapTen 51 (fun _ => none) ∅
      (fun _ => ⟨5, 5⟩)).2.2 (by decide)
